import Mathlib

/-!
Verification of src/code/zato-cache/setup.py.

The script is the module body:

  curdir = os.path.dirname(os.path.abspath(__file__))
  _version_py = os.path.normpath(os.path.join(curdir, '..', '.version.py'))
  _locals = \x7b\x7d
  execfile(_version_py, _locals)
  version = _locals['version']
  setup(name='zato-cache', version=version, author='Zato Source s.r.o.',
        author_email='info@zato.io', url='https://zato.io',
        package_dir=\x7b '':'src' \x7d, packages=find_packages('src'),
        namespace_packages=['zato'], zip_safe=False)

We embed POSIX paths as lists of components of an absolute path, and the
filesystem as two oracles: the outcome of execfile on a path, and the tree
of subdirectories found at a path. Note that find_packages('src') walks
the relative path src, which the operating system resolves against the
working directory of the process, not against the script location.
-/

/-- A Python runtime value, as far as this script can observe one. -/
inductive PyVal where
  | str (s : String)
  | int (n : Int)
  | bool (b : Bool)
  | pyNone
deriving DecidableEq, Repr

/-- Lookup in a dict built by executing a file: assignments made later in
the file override earlier ones, so the last binding of a key wins. -/
def dictLookup (d : List (String × PyVal)) (k : String) : Option PyVal :=
  match d with
  | [] => Option.none
  | (k₀, v₀) :: rest =>
      match dictLookup rest k with
      | Option.none => if k₀ = k then some v₀ else Option.none
      | some v => some v

/-- Outcome of execfile(path, globals): the file may be missing or
unreadable (IOError), the executed code may raise, or execution completes
and leaves a dict of global bindings. -/
inductive ExecResult where
  | ioError
  | raised
  | ok (globals : List (String × PyVal))
deriving DecidableEq, Repr

/-- A path as the Python os.path string: possibly relative, split into
components. -/
structure PyPath where
  isAbs : Bool
  comps : List String
deriving DecidableEq, Repr

/-- One step of os.path.normpath on an absolute path: empty and dot
components vanish, dotdot removes the last surviving component (at the
root it is dropped, as normpath does for absolute paths), anything else is
kept. -/
def normStep (acc : List String) (c : String) : List String :=
  if c = "" ∨ c = "." then acc
  else if c = ".." then acc.dropLast
  else acc ++ [c]

/-- os.path.normpath restricted to absolute paths, on components. -/
def normpath (p : List String) : List String := p.foldl normStep []

/-- os.path.abspath: an absolute path is normalised as is, a relative one
is joined to the current working directory first. -/
def abspath (cwd : List String) (p : PyPath) : List String :=
  if p.isAbs then normpath p.comps else normpath (cwd ++ p.comps)

mutual
/-- A directory tree: whether the directory holds an __init__ module, and
its named subdirectories. -/
inductive Dir where
  | node (hasInit : Bool) (subdirs : DirList)
/-- The named subdirectories of a directory: a list of name and subtree
pairs. -/
inductive DirList where
  | nil
  | cons (nm : String) (d : Dir) (rest : DirList)
end

/-- Worker for find_packages: walk the subdirectories, keep a directory
when its name has no dot and it holds an __init__ module, prune the rest
(setuptools PackageFinder stops walking below a non-package). -/
def findIn : String → DirList → List String
  | _, .nil => []
  | pfx, .cons nm (.node hi subs) rest =>
      let full := if pfx = "" then nm else pfx ++ "." ++ nm
      if nm.data.contains '.' then findIn pfx rest
      else if hi then full :: (findIn full subs ++ findIn pfx rest)
      else findIn pfx rest

/-- setuptools find_packages applied to a directory: all dotted package
names found below it (the root itself is not a package). -/
def find_packages (src : Dir) : List String :=
  match src with
  | .node _ subs => findIn "" subs

/-- The keyword arguments this script passes to setuptools setup.
ext_modules is the optional keyword the script never passes. -/
structure Metadata where
  name : String
  version : PyVal
  author : String
  author_email : String
  url : String
  package_dir : List (String × String)
  packages : List String
  namespace_packages : List String
  zip_safe : Bool
  ext_modules : Option (List String)
deriving Repr

/-- The run environment of one invocation of the script: the path the
interpreter gave for the script file, the execfile oracle, and the
directory oracle giving the tree of subdirectories the filesystem holds at
each absolute path (an absent directory is a node with no subdirectories,
on which find_packages returns the empty list, as os.walk yields nothing
there). -/
structure Env where
  file : PyPath
  fs : List String → ExecResult
  dirs : List String → Dir

/-- curdir = os.path.dirname(os.path.abspath(__file__)). -/
def curdir (cwd : List String) (env : Env) : List String :=
  (abspath cwd env.file).dropLast

/-- The source binds this to _version_py:
os.path.normpath(os.path.join(curdir, '..', '.version.py')). -/
def version_py (cwd : List String) (env : Env) : List String :=
  normpath (curdir cwd env ++ ["..", ".version.py"])

/-- An uncaught error the script propagates: execfile IOError, an error
raised by the executed version file, or the KeyError from
_locals['version']. -/
inductive ScriptError where
  | ioError (path : List String)
  | execError (path : List String)
  | keyError (key : String)
deriving DecidableEq, Repr

/-- An externally visible action of the script. The last two constructors
are the capabilities the imports of Extension and cythonize would give;
the script never emits them. -/
inductive ScriptAction where
  | readVersionFile (path : List String)
  | discoverPackages (dir : String)
  | registerMetadata (md : Metadata)
  | cythonizeSources
  | buildExtension
deriving Repr

/-- The record of keyword arguments the setup call passes, as literals in
the source, given the version value and the src tree. -/
def mkMetadata (v : PyVal) (src : Dir) : Metadata :=
  { name := "zato-cache"
    version := v
    author := "Zato Source s.r.o."
    author_email := "info@zato.io"
    url := "https://zato.io"
    package_dir := [("", "src")]
    packages := find_packages src
    namespace_packages := ["zato"]
    zip_safe := false
    ext_modules := Option.none }

/-- The whole module body: execfile the version file, take
_locals['version'], call setup. Returns the actions performed in order
together with the outcome. An error at any line propagates and stops the
script there. The version file path is anchored at the script location
through abspath(__file__), but find_packages('src') walks the src
directory under the working directory cwd of the process. -/
def runScript (cwd : List String) (env : Env) :
    List ScriptAction × Except ScriptError Metadata :=
  match env.fs (version_py cwd env) with
  | .ioError =>
      ([.readVersionFile (version_py cwd env)],
       .error (.ioError (version_py cwd env)))
  | .raised =>
      ([.readVersionFile (version_py cwd env)],
       .error (.execError (version_py cwd env)))
  | .ok d =>
      match dictLookup d "version" with
      | Option.none =>
          ([.readVersionFile (version_py cwd env)],
           .error (.keyError "version"))
      | some v =>
          ([.readVersionFile (version_py cwd env),
            .discoverPackages "src",
            .registerMetadata (mkMetadata v (env.dirs (cwd ++ ["src"])))],
           .ok (mkMetadata v (env.dirs (cwd ++ ["src"]))))

/-- The outcome of the script. -/
def runSetup (cwd : List String) (env : Env) : Except ScriptError Metadata :=
  (runScript cwd env).2

/-- The actions of the script, in order. -/
def runTrace (cwd : List String) (env : Env) : List ScriptAction :=
  (runScript cwd env).1

/-- Exit code of the Python interpreter on an uncaught exception. -/
def pythonFatalExit : Nat := 1

/-- Exit status of the whole process: the script defines no exit of its
own, so on success the packaging tool (given the registered metadata and
the command line) decides the status, and an uncaught error exits through
the interpreter. -/
def processExit (tool : Metadata → List String → Nat) (argv : List String)
    (cwd : List String) (env : Env) : Nat :=
  match runSetup cwd env with
  | .ok md => tool md argv
  | .error _ => pythonFatalExit

/-! Concrete run environments used by the witnesses. -/

/-- A well-formed src tree: src/zato/__init__.py and src/zato/cache/__init__.py. -/
def exDir : Dir :=
  .node false
    (.cons "zato" (.node true (.cons "cache" (.node true .nil) .nil)) .nil)

/-- The setup script at the absolute path /code/zato-cache/setup.py. -/
def exFile : PyPath := { isAbs := true, comps := ["code", "zato-cache", "setup.py"] }

/-- An environment whose version file /code/.version.py binds version to
the string 3.2.1 and executes cleanly. -/
def exEnv : Env :=
  { file := exFile
    fs := fun p =>
      if p = ["code", ".version.py"] then .ok [("version", .str "3.2.1")]
      else .ioError
    dirs := fun _ => exDir }

/-- The metadata the script registers in exEnv. -/
def exMd : Metadata := mkMetadata (.str "3.2.1") exDir

/-- An environment whose version file is missing everywhere. -/
def exEnvMissing : Env :=
  { file := exFile, fs := fun _ => .ioError, dirs := fun _ => exDir }

/-- An environment whose version file binds version to the empty string. -/
def exEnv2 : Env :=
  { file := exFile
    fs := fun p =>
      if p = ["code", ".version.py"] then .ok [("version", .str "")]
      else .ioError
    dirs := fun _ => exDir }

/-- A packaging tool model for the exit-code witness. -/
def exTool : Metadata → List String → Nat := fun _ _ => 0

/-- An environment whose src tree exists only at /code/zato-cache/src:
running the script from /code/zato-cache finds the packages, running it
from anywhere else walks an absent src directory and finds none. -/
def exEnvC8 : Env :=
  { file := exFile
    fs := fun p =>
      if p = ["code", ".version.py"] then .ok [("version", .str "3.2.1")]
      else .ioError
    dirs := fun p =>
      if p = ["code", "zato-cache", "src"] then exDir else Dir.node false .nil }

/-! Helper lemmas. -/

/-- A successful run means the version file executed to a dict binding
version, and the metadata is exactly the literal record around that value. -/
theorem runSetup_ok_shape (cwd : List String) (env : Env) (md : Metadata)
    (h : runSetup cwd env = .ok md) :
    ∃ d v, env.fs (version_py cwd env) = .ok d ∧
      dictLookup d "version" = some v ∧
      md = mkMetadata v (env.dirs (cwd ++ ["src"])) := by
  unfold runSetup at h
  cases hfs : env.fs (version_py cwd env) with
  | ioError => simp [runScript, hfs] at h
  | raised => simp [runScript, hfs] at h
  | ok d =>
      cases hv : dictLookup d "version" with
      | none => simp [runScript, hfs, hv] at h
      | some v =>
          simp [runScript, hfs, hv] at h
          exact ⟨d, v, rfl, hv, h.symm⟩

/-- Every trace is the single read of the version file, or that read
followed by package discovery and one metadata registration. -/
theorem runTrace_shape (cwd : List String) (env : Env) :
    runTrace cwd env = [.readVersionFile (version_py cwd env)] ∨
    ∃ md, runTrace cwd env =
      [.readVersionFile (version_py cwd env), .discoverPackages "src",
       .registerMetadata md] := by
  unfold runTrace
  cases hfs : env.fs (version_py cwd env) with
  | ioError => exact Or.inl (by simp [runScript, hfs])
  | raised => exact Or.inl (by simp [runScript, hfs])
  | ok d =>
      cases hv : dictLookup d "version" with
      | none => exact Or.inl (by simp [runScript, hfs, hv])
      | some v =>
          exact Or.inr
            ⟨mkMetadata v (env.dirs (cwd ++ ["src"])), by simp [runScript, hfs, hv]⟩

/-- A component survives normalisation: not empty, not dot, not dotdot. -/
def okComp (c : String) : Bool := decide (c ≠ "" ∧ c ≠ "." ∧ c ≠ "..")

/-- A component list already in normal form. -/
def normalizedComps (l : List String) : Bool := l.all okComp

theorem normStep_ok (acc : List String) (c : String) (h : okComp c = true) :
    normStep acc c = acc ++ [c] := by
  have h' := of_decide_eq_true h
  unfold normStep
  rw [if_neg (not_or.mpr ⟨h'.1, h'.2.1⟩), if_neg h'.2.2]

theorem foldl_normStep_id (l : List String) (h : normalizedComps l = true) :
    ∀ acc, l.foldl normStep acc = acc ++ l := by
  induction l with
  | nil => intro acc; simp
  | cons c t ih =>
      intro acc
      have hc : okComp c = true := List.all_eq_true.mp h c (by simp)
      have ht : normalizedComps t = true := by
        apply List.all_eq_true.mpr
        intro x hx
        exact List.all_eq_true.mp h x (by simp [hx])
      simp only [List.foldl_cons, normStep_ok acc c hc, ih ht, List.append_assoc,
        List.singleton_append]

theorem normpath_normalized (l : List String) (h : normalizedComps l = true) :
    normpath l = l := by
  unfold normpath
  rw [foldl_normStep_id l h []]
  simp

theorem normalizedComps_dropLast (l : List String) (h : normalizedComps l = true) :
    normalizedComps l.dropLast = true := by
  apply List.all_eq_true.mpr
  intro x hx
  exact List.all_eq_true.mp h x ((List.dropLast_sublist l).mem hx)

/-- For an absolute, already normal script path, the computed version-file
path is the sibling .version.py of the parent of the script directory. -/
theorem version_py_eq (cwd : List String) (env : Env)
    (h₁ : env.file.isAbs = true) (h₂ : normalizedComps env.file.comps = true) :
    version_py cwd env = env.file.comps.dropLast.dropLast ++ [".version.py"] := by
  unfold version_py curdir abspath
  rw [h₁]
  simp only [if_true]
  rw [normpath_normalized _ h₂]
  unfold normpath
  rw [List.foldl_append]
  rw [foldl_normStep_id _ (normalizedComps_dropLast _ h₂) []]
  simp only [List.nil_append, List.foldl_cons, List.foldl_nil]
  have hdd : normStep env.file.comps.dropLast ".." = env.file.comps.dropLast.dropLast := by
    unfold normStep
    rw [if_neg (by decide), if_pos rfl]
  rw [hdd, normStep_ok _ _ (by decide)]

/-! The claims. -/

/-- C1: whenever the version file executes to a dict that binds version to
a value v, the run succeeds and the registered metadata carries exactly
that value v as its version field, unmodified. -/
theorem c1_version_verbatim (cwd : List String) (env : Env)
    (d : List (String × PyVal)) (v : PyVal)
    (hfs : env.fs (version_py cwd env) = .ok d)
    (hv : dictLookup d "version" = some v) :
    ∃ md, runSetup cwd env = .ok md ∧ md.version = v := by
  refine ⟨mkMetadata v (env.dirs (cwd ++ ["src"])), ?_, rfl⟩
  simp [runSetup, runScript, hfs, hv]

/-- Witness for C1: a version file binding version to the string 3.2.1
yields metadata whose version field is exactly that string. -/
theorem c1_witness :
    ∃ md, runSetup [] exEnv = .ok md ∧ md.version = PyVal.str "3.2.1" :=
  c1_version_verbatim [] exEnv [("version", .str "3.2.1")] (.str "3.2.1") rfl rfl

/-- C2: the script fails, with a propagated error, exactly when the
version file is missing or unreadable, when executing it raises, or when
the resulting dict does not bind version; on every other environment the
run succeeds, so there is no other failure mode. -/
theorem c2_failure_iff (cwd : List String) (env : Env) :
    (∃ e, runSetup cwd env = .error e) ↔
      env.fs (version_py cwd env) = .ioError ∨
      env.fs (version_py cwd env) = .raised ∨
      ∃ d, env.fs (version_py cwd env) = .ok d ∧
        dictLookup d "version" = Option.none := by
  unfold runSetup
  cases hfs : env.fs (version_py cwd env) with
  | ioError => simp [runScript, hfs]
  | raised => simp [runScript, hfs]
  | ok d =>
      cases hv : dictLookup d "version" with
      | none => simp [runScript, hfs, hv]
      | some v => simp [runScript, hfs, hv]

/-- Witness for C2: with the version file missing everywhere, the run
propagates an error. -/
theorem c2_witness : ∃ e, runSetup [] exEnvMissing = .error e :=
  (c2_failure_iff [] exEnvMissing).mpr (Or.inl rfl)

/-- C3: every successful run registers the literal metadata: name
zato-cache, namespace packages zato, author Zato Source s.r.o., author
email info at zato.io, and the URL of zato.io. -/
theorem c3_literal_metadata (cwd : List String) (env : Env) (md : Metadata)
    (h : runSetup cwd env = .ok md) :
    md.name = "zato-cache" ∧ md.namespace_packages = ["zato"] ∧
    md.author = "Zato Source s.r.o." ∧ md.author_email = "info@zato.io" ∧
    md.url = "https://zato.io" := by
  obtain ⟨d, v, _, _, rfl⟩ := runSetup_ok_shape cwd env md h
  exact ⟨rfl, rfl, rfl, rfl, rfl⟩

/-- Witness for C3, on the concrete well-formed environment. -/
theorem c3_witness :
    exMd.name = "zato-cache" ∧ exMd.namespace_packages = ["zato"] ∧
    exMd.author = "Zato Source s.r.o." ∧ exMd.author_email = "info@zato.io" ∧
    exMd.url = "https://zato.io" :=
  c3_literal_metadata [] exEnv exMd rfl

/-- C4: the version file path is computed from the script location alone
as the fixed relative path dotdot slash .version.py, reading it is the
first action of every run, and a file that fails to bind version makes the
run fail, so the file must define a version value. -/
theorem c4_fixed_version_path (cwd : List String) (env : Env)
    (h₁ : env.file.isAbs = true) (h₂ : normalizedComps env.file.comps = true) :
    version_py cwd env = env.file.comps.dropLast.dropLast ++ [".version.py"] ∧
    (runTrace cwd env).head? =
      some (.readVersionFile (version_py cwd env)) ∧
    (∀ d, env.fs (version_py cwd env) = .ok d →
        dictLookup d "version" = Option.none →
        ∃ e, runSetup cwd env = .error e) := by
  refine ⟨version_py_eq cwd env h₁ h₂, ?_, ?_⟩
  · rcases runTrace_shape cwd env with h | ⟨md, h⟩ <;> rw [h] <;> rfl
  · intro d hfs hv
    exact ⟨.keyError "version", by simp [runSetup, runScript, hfs, hv]⟩

/-- Witness for C4: in the concrete environment the script at
/code/zato-cache/setup.py reads /code/.version.py. -/
theorem c4_witness : version_py [] exEnv = ["code", ".version.py"] :=
  ((c4_fixed_version_path [] exEnv rfl (by decide)).1).trans (by decide)

/-- C5: every successful run registers as packages exactly the result of
find_packages on the src directory walked under the working directory of
the process, and maps the root package directory to src; no package
outside that directory is included. -/
theorem c5_packages_from_src (cwd : List String) (env : Env) (md : Metadata)
    (h : runSetup cwd env = .ok md) :
    md.packages = find_packages (env.dirs (cwd ++ ["src"])) ∧
    md.package_dir = [("", "src")] := by
  obtain ⟨d, v, _, _, rfl⟩ := runSetup_ok_shape cwd env md h
  exact ⟨rfl, rfl⟩

/-- Witness for C5, on the concrete well-formed environment. -/
theorem c5_witness :
    exMd.packages = find_packages (exEnv.dirs ["src"]) ∧
    exMd.package_dir = [("", "src")] :=
  c5_packages_from_src [] exEnv exMd rfl

/-- C6: a successful run performs exactly three actions, in order: read
the version file, discover the packages under src, and register the
metadata with the build tool; nothing else appears in the trace. -/
theorem c6_exactly_three_actions (cwd : List String) (env : Env) (md : Metadata)
    (h : runSetup cwd env = .ok md) :
    runTrace cwd env =
      [.readVersionFile (version_py cwd env), .discoverPackages "src",
       .registerMetadata md] := by
  obtain ⟨d, v, hfs, hv, rfl⟩ := runSetup_ok_shape cwd env md h
  simp [runTrace, runScript, hfs, hv]

/-- Witness for C6, on the concrete well-formed environment. -/
theorem c6_witness :
    runTrace [] exEnv =
      [.readVersionFile (version_py [] exEnv), .discoverPackages "src",
       .registerMetadata exMd] :=
  c6_exactly_three_actions [] exEnv exMd rfl

/-- C7: the script defines no exit of its own and parses no flags: when
the run reaches the setup call, the process exit status is exactly the
value the packaging tool returns for the registered metadata and the
command line, and the pre-setup part of the script never inspects the
command line, so tools that agree on the arguments give equal exits. -/
theorem c7_exit_is_tool_exit (tool : Metadata → List String → Nat)
    (cwd : List String) (env : Env) :
    (∀ argv md, runSetup cwd env = .ok md →
        processExit tool argv cwd env = tool md argv) ∧
    (∀ argv₁ argv₂, (∀ m, tool m argv₁ = tool m argv₂) →
        processExit tool argv₁ cwd env = processExit tool argv₂ cwd env) := by
  constructor
  · intro argv md h
    unfold processExit
    rw [h]
  · intro a₁ a₂ ht
    unfold processExit
    cases runSetup cwd env with
    | ok md => exact ht md
    | error e => rfl

/-- Witness for C7: on the concrete environment, the process exit is the
value of the tool at the registered metadata. -/
theorem c7_witness :
    processExit exTool ["install"] [] exEnv = exTool exMd ["install"] :=
  (c7_exit_is_tool_exit exTool [] exEnv).1 ["install"] exMd rfl

/-- Counterexample to C8 as stated: with the script at the absolute path
/code/zato-cache/setup.py and the src tree present only at
/code/zato-cache/src, the runs from the working directories
/code/zato-cache and /elsewhere read the same version file yet register
different metadata, because find_packages('src') walks the src directory
under the working directory. -/
theorem c8_counterexample :
    version_py ["code", "zato-cache"] exEnvC8 =
      version_py ["elsewhere"] exEnvC8 ∧
    (runSetup ["code", "zato-cache"] exEnvC8).toOption.map Metadata.packages ≠
      (runSetup ["elsewhere"] exEnvC8).toOption.map Metadata.packages :=
  ⟨rfl, by decide⟩

/-- C8 amended: when the script file path is absolute, two runs that
differ only in the working directory of the process read the same version
file, and when both succeed their registered metadata agree on every field
except possibly packages, which each run discovers with find_packages from
the src directory under its own working directory. -/
theorem c8_cwd_independent_except_packages (env : Env) (cwd₁ cwd₂ : List String)
    (h : env.file.isAbs = true) :
    version_py cwd₁ env = version_py cwd₂ env ∧
    ∀ md₁ md₂, runSetup cwd₁ env = .ok md₁ → runSetup cwd₂ env = .ok md₂ →
      md₁.packages = find_packages (env.dirs (cwd₁ ++ ["src"])) ∧
      md₁ = { md₂ with packages := md₁.packages } := by
  have hp : version_py cwd₁ env = version_py cwd₂ env := by
    unfold version_py curdir abspath
    simp [h]
  refine ⟨hp, ?_⟩
  intro md₁ md₂ h₁ h₂
  obtain ⟨d₁, v₁, hfs₁, hv₁, rfl⟩ := runSetup_ok_shape _ _ _ h₁
  obtain ⟨d₂, v₂, hfs₂, hv₂, rfl⟩ := runSetup_ok_shape _ _ _ h₂
  rw [hp] at hfs₁
  have hd : d₁ = d₂ := by
    have hh := hfs₁.symm.trans hfs₂
    simpa using hh
  subst hd
  have hv : v₁ = v₂ := by
    have hh := hv₁.symm.trans hv₂
    simpa using hh
  subst hv
  exact ⟨rfl, rfl⟩

/-- Witness for the amended C8: in the counterexample environment the two
runs read the same version file. -/
theorem c8_witness :
    version_py ["code", "zato-cache"] exEnvC8 = version_py ["elsewhere"] exEnvC8 :=
  (c8_cwd_independent_except_packages exEnvC8 ["code", "zato-cache"]
    ["elsewhere"] rfl).1

/-- C9: no validation is applied to the version value: whatever value the
version file binds, including the empty string or a non-string, the run
succeeds and passes it verbatim into the metadata; and when the file
executes cleanly, the only value-related failure is the version key being
absent. -/
theorem c9_version_value_unchecked (cwd : List String) (env : Env)
    (d : List (String × PyVal))
    (hfs : env.fs (version_py cwd env) = .ok d) :
    (∀ v, dictLookup d "version" = some v →
        runSetup cwd env = .ok (mkMetadata v (env.dirs (cwd ++ ["src"])))) ∧
    ((∃ e, runSetup cwd env = .error e) →
        dictLookup d "version" = Option.none) := by
  constructor
  · intro v hv
    simp [runSetup, runScript, hfs, hv]
  · rintro ⟨e, he⟩
    cases hv : dictLookup d "version" with
    | none => rfl
    | some v => simp [runSetup, runScript, hfs, hv] at he

/-- Witness for C9: a version file binding version to the empty string
still succeeds and the empty string lands in the metadata verbatim. -/
theorem c9_witness :
    runSetup [] exEnv2 = .ok (mkMetadata (.str "") (exEnv2.dirs ["src"])) :=
  (c9_version_value_unchecked [] exEnv2 [("version", .str "")] rfl).1
    (.str "") rfl

/-- C10: the imported Cython machinery is never used: no run ever
cythonizes a source or builds an extension module, and every registered
metadata passes no ext_modules keyword and sets zip_safe to False. -/
theorem c10_no_cython_no_extensions (cwd : List String) (env : Env) :
    (∀ a ∈ runTrace cwd env,
        a ≠ ScriptAction.cythonizeSources ∧ a ≠ ScriptAction.buildExtension) ∧
    (∀ md, runSetup cwd env = .ok md →
        md.ext_modules = Option.none ∧ md.zip_safe = false) := by
  constructor
  · intro a ha
    rcases runTrace_shape cwd env with h | ⟨md, h⟩ <;> rw [h] at ha <;>
      simp at ha
    · subst ha
      exact ⟨(fun h => nomatch h), (fun h => nomatch h)⟩
    · rcases ha with rfl | rfl | rfl
      · exact ⟨(fun h => nomatch h), (fun h => nomatch h)⟩
      · exact ⟨(fun h => nomatch h), (fun h => nomatch h)⟩
      · exact ⟨(fun h => nomatch h), (fun h => nomatch h)⟩
  · intro md h
    obtain ⟨d, v, _, _, rfl⟩ := runSetup_ok_shape cwd env md h
    exact ⟨rfl, rfl⟩

/-- Witness for C10: the concrete run registers no extension modules and
is not zip safe. -/
theorem c10_witness : exMd.ext_modules = Option.none ∧ exMd.zip_safe = false :=
  (c10_no_cython_no_extensions [] exEnv).2 exMd rfl
